/-
Verification of the quantdev analytics backend (FastAPI + numpy/pandas/scipy
services) against its natural-language specification.

The Python services are shallowly embedded in Lean 4:
  * prices, returns, equities and all exact arithmetic are modelled over `ℚ`;
  * quantities the source obtains through a square root (standard deviations,
    t-statistic denominators) are modelled over `ℝ` via `Real.sqrt` applied to
    the exact rational variance;
  * missing values (pandas `NaN` from incomplete rolling windows, shifts and
    `pct_change`) are modelled with `Option`;
  * randomness (`np.random.permutation`, `np.random.choice`, `np.random.randn`)
    is passed in explicitly as data, so every function is a pure function of
    the program input plus the drawn randomness;
  * external numeric routines that the repository treats as boundary
    dependencies (`np.linalg.lstsq`, `scipy.stats.t.cdf`,
    `scipy.stats.normaltest`'s p-value) are supplied as explicit parameters;
    behaviour of those boundaries that the control flow depends on (the
    `normaltest` sample-size guard) is modelled from their documented contract;
  * Python exceptions are modelled with `Except`, HTTP translation of
    exceptions with an explicit response type.
-/
import Mathlib

namespace QuantDev

/-! ## Common numeric helpers (numpy / pandas semantics) -/

/-- Arithmetic mean of a list of rationals (`np.mean`); division by zero for
the empty list follows Lean's `0` convention (the empty case is always guarded
in the embedded services, mirroring numpy's `nan` warnings). -/
def qmean (xs : List ℚ) : ℚ := xs.sum / xs.length

/-- Population variance (`np.std(xs)**2`, i.e. `ddof=0`). -/
def popVar (xs : List ℚ) : ℚ :=
  (xs.map (fun x => (x - qmean xs) ^ 2)).sum / xs.length

/-- Sample variance (`pandas`/`scipy` default `ddof=1`). -/
def sampleVar (xs : List ℚ) : ℚ :=
  (xs.map (fun x => (x - qmean xs) ^ 2)).sum / ((xs.length : ℚ) - 1)

/-- Embedding of `np.percentile(xs, q)` with the default linear interpolation method:
sort, set `h = q*(n-1)/100`, and interpolate between the neighbouring order
statistics.  Total function; numpy is only ever called with `0 ≤ q ≤ 100` and
a nonempty array in the embedded services. -/
def npPercentile (xs : List ℚ) (q : ℚ) : ℚ :=
  let s := xs.mergeSort (fun a b => a ≤ b)
  let n := s.length
  if n = 0 then 0
  else
    let h : ℚ := q * ((n : ℚ) - 1) / 100
    let i : ℕ := min ⌊h⌋.toNat (n - 1)
    let j : ℕ := min (i + 1) (n - 1)
    let γ : ℚ := h - (i : ℚ)
    s.getD i 0 + γ * (s.getD j 0 - s.getD i 0)

/-- Pandas `Series.median()`: middle order statistic, or the average of the
two middle order statistics for an even number of observations. -/
def pandasMedian (xs : List ℚ) : ℚ :=
  let s := xs.mergeSort (fun a b => a ≤ b)
  let n := s.length
  if n = 0 then 0
  else if n % 2 = 1 then s.getD (n / 2) 0
  else (s.getD (n / 2 - 1) 0 + s.getD (n / 2) 0) / 2

/-- A JSON-ish Python value: the embedded services build `dict`s whose values
are strings or (real) numbers. -/
inductive PyVal where
  | str (s : String)
  | num (x : ℝ)

/-- Embedding of `app.models.schemas.PropFirmType`: the request-level firm
enumeration, a `str`-mixin `Enum` with six members. -/
inductive SchemasPropFirmType where
  | ftmo | the5ers | apex | topstep | mff | e8
deriving DecidableEq

/-- Embedding of `app.services.prop_firm_simulator.PropFirmType`: the
simulator module's own, *distinct* plain `Enum` with the same six member
names and values. -/
inductive SimPropFirmType where
  | FTMO | THE5ERS | APEX | TOPSTEP | MFF | E8
deriving DecidableEq

/-- Python exceptions that the embedded code can raise.  `keyErrorPropFirm`
carries the offending dictionary key (the *schemas* enum member), mirroring
`KeyError(prop_firm)`. -/
inductive PyException where
  | keyErrorPropFirm (key : SchemasPropFirmType)
  | valueError (msg : String)
deriving DecidableEq

/-! ## Prop firm simulator (`app/services/prop_firm_simulator.py`) and its
router (`app/routers/prop_firm.py`) -/

/-- Embedding of the `PropFirmRules` dataclass. -/
structure PropFirmRules where
  name : String
  account_size : ℚ
  challenge_cost : ℚ
  profit_target_phase1 : ℚ
  profit_target_phase2 : ℚ
  max_daily_drawdown : ℚ
  max_total_drawdown : ℚ
  min_trading_days : ℕ
  max_trading_days : Option ℕ
  profit_split : ℚ
  trailing_drawdown : Bool := false
  consistency_rule : Option ℚ := none
deriving DecidableEq

/-- Equality test used by the Python dictionary lookup
`PROP_FIRM_CONFIGS[prop_firm]` in `simulate_challenge`.  The stored keys are
members of the *simulator module's* plain `PropFirmType(Enum)`, while the
router (and the service tests) pass members of the *schemas* module's
`PropFirmType(str, Enum)`.  In Python, comparing a member of a `str`-mixin
enum with a member of a different plain enum class is always `False`:
`str.__eq__` returns `NotImplemented` for a non-`str` operand, and the
reflected comparison falls back to `object` identity, which fails across
distinct enum classes.  (Their hashes differ as well: a `str`-mixin member
hashes as its string value, a plain `Enum` member as its member name.)
Hence the lookup never finds a key, for any firm. -/
def pyEnumEqSchemaSim (_a : SchemasPropFirmType) (_b : SimPropFirmType) : Bool :=
  false

/-- Embedding of the module-level `PROP_FIRM_CONFIGS` dictionary: four
configured firms, keyed by the simulator module's enum, with the exact
literal values of the source. -/
def PROP_FIRM_CONFIGS : List (SimPropFirmType × PropFirmRules) :=
  [ (.FTMO,
     { name := "FTMO", account_size := 100000, challenge_cost := 540,
       profit_target_phase1 := 10/100, profit_target_phase2 := 5/100,
       max_daily_drawdown := 5/100, max_total_drawdown := 10/100,
       min_trading_days := 4, max_trading_days := none, profit_split := 80/100 }),
    (.THE5ERS,
     { name := "The5%ers", account_size := 100000, challenge_cost := 235,
       profit_target_phase1 := 8/100, profit_target_phase2 := 5/100,
       max_daily_drawdown := 5/100, max_total_drawdown := 10/100,
       min_trading_days := 3, max_trading_days := none, profit_split := 80/100 }),
    (.APEX,
     { name := "Apex Trader Funding", account_size := 100000, challenge_cost := 167,
       profit_target_phase1 := 6/100, profit_target_phase2 := 0,
       max_daily_drawdown := 0, max_total_drawdown := 3/100,
       min_trading_days := 7, max_trading_days := none, profit_split := 90/100,
       trailing_drawdown := true }),
    (.E8,
     { name := "E8 Markets", account_size := 100000, challenge_cost := 228,
       profit_target_phase1 := 8/100, profit_target_phase2 := 5/100,
       max_daily_drawdown := 5/100, max_total_drawdown := 8/100,
       min_trading_days := 0, max_trading_days := none, profit_split := 80/100 }) ]

/-- Semantics of the Python dictionary lookup `PROP_FIRM_CONFIGS[prop_firm]`
with a key from the schemas enum: the first stored key comparing equal under
Python `==` wins; `none` models a raised `KeyError`. -/
def configLookup (key : SchemasPropFirmType) : Option PropFirmRules :=
  (PROP_FIRM_CONFIGS.find? (fun kv => pyEnumEqSchemaSim key kv.1)).map Prod.snd

/-- Outcome of one phase-simulation trial. -/
inductive TrialOutcome where
  | passed (days : ℕ)
  | failedDailyDD
  | failedTotalDD
  | failedConsistency
  | timeExpired
deriving DecidableEq

/-- Python `max` of a nonempty list (default `0` on the guarded-empty case). -/
def listMax (l : List ℚ) : ℚ := l.foldl max (l.headD 0)

/-- One trial of `_simulate_phase`: walk one shuffled return path day by day
from equity 1.0, checking (in source order) the daily-drawdown limit, the
trailing or flat total-drawdown limit, the consistency rule, and the
pass condition.  Note that `if consistency_rule ...` uses Python truthiness,
so a consistency fraction of `0` disables the rule. -/
def runPhaseTrial (profit_target max_daily_dd max_total_dd : ℚ) (min_days : ℕ)
    (trailing_dd : Bool) (consistency_rule : Option ℚ) :
    List ℚ → ℚ → ℚ → ℚ → List ℚ → ℕ → TrialOutcome
  | [], _, _, _, _, _ => .timeExpired
  | r :: rest, equity, peak, floor, hist, day =>
    let day' := day + 1
    let hist' := hist ++ [equity * r]
    if max_daily_dd > 0 ∧ r < -max_daily_dd then .failedDailyDD
    else
      let equity' := equity * (1 + r)
      let peak' := if trailing_dd ∧ equity' > peak then equity' else peak
      let floor' := if trailing_dd ∧ equity' > peak then equity' - max_total_dd else floor
      if trailing_dd ∧ equity' < floor' then .failedTotalDD
      else if (¬ trailing_dd) ∧ equity' < 1 - max_total_dd then .failedTotalDD
      else if consistency_rule.getD 0 ≠ 0 ∧ 0 < hist'.length ∧ hist'.sum > 0 ∧
              listMax hist' / hist'.sum > consistency_rule.getD 0 then .failedConsistency
      else if day' ≥ min_days ∧ equity' ≥ 1 + profit_target then .passed day'
      else runPhaseTrial profit_target max_daily_dd max_total_dd min_days
             trailing_dd consistency_rule rest equity' peak' floor' hist' day'

/-- Aggregate result of `_simulate_phase`. -/
structure PhaseResult where
  pass_rate : ℚ
  fail_rate : ℚ
  fail_daily_drawdown : ℚ
  fail_total_drawdown : ℚ
  fail_consistency : ℚ
  fail_time_expired : ℚ
  avg_days_to_pass : Option ℚ
  days_to_pass_p25 : Option ℚ
  days_to_pass_p50 : Option ℚ
  days_to_pass_p75 : Option ℚ
deriving DecidableEq

/-- Embedding of `_simulate_phase`.  The per-trial random reordering of the
historical daily returns (`np.random.permutation`) is supplied explicitly as
`shuffles`, one shuffled path per trial. -/
def simulate_phase (shuffles : List (List ℚ)) (profit_target max_daily_dd max_total_dd : ℚ)
    (min_days : ℕ) (trailing_dd : Bool) (consistency_rule : Option ℚ) : PhaseResult :=
  let outcomes := shuffles.map (fun s =>
    runPhaseTrial profit_target max_daily_dd max_total_dd min_days trailing_dd
      consistency_rule s 1 1 (1 - max_total_dd) [] 0)
  let n : ℚ := shuffles.length
  let daysList := outcomes.filterMap (fun o => match o with | .passed d => some d | _ => none)
  let passed : ℚ := daysList.length
  let fDaily : ℚ := (outcomes.filter (· = .failedDailyDD)).length
  let fTotal : ℚ := (outcomes.filter (· = .failedTotalDD)).length
  let fCons : ℚ := (outcomes.filter (· = .failedConsistency)).length
  let daysQ : List ℚ := daysList.map (fun d => (d : ℚ))
  { pass_rate := passed / n
    fail_rate := 1 - passed / n
    fail_daily_drawdown := fDaily / n
    fail_total_drawdown := fTotal / n
    fail_consistency := fCons / n
    fail_time_expired := (n - passed - fDaily - fTotal - fCons) / n
    avg_days_to_pass := if daysList.isEmpty then none else some (qmean daysQ)
    days_to_pass_p25 := if daysList.isEmpty then none else some (npPercentile daysQ 25)
    days_to_pass_p50 := if daysList.isEmpty then none else some (npPercentile daysQ 50)
    days_to_pass_p75 := if daysList.isEmpty then none else some (npPercentile daysQ 75) }

/-- Day loop of one funded-account month: walk up to 21 days starting at
`idx` into the (tiled, shuffled) extended return path, applying the daily
and the flat total drawdown rules; returns the updated equity and whether a
violation occurred. -/
def fundedDays (ext : List ℚ) (rules : PropFirmRules) : ℕ → ℕ → ℚ → ℚ × Bool
  | _, 0, equity => (equity, false)
  | idx, rem + 1, equity =>
    if ext.length ≤ idx then (equity, false)
    else
      let r := ext.getD idx 0
      if rules.max_daily_drawdown > 0 ∧ r < -rules.max_daily_drawdown then (equity, true)
      else
        let equity' := equity * (1 + r)
        if equity' < 1 - rules.max_total_drawdown then (equity', true)
        else fundedDays ext rules (idx + 1) rem equity'

/-- Month loop of one funded-account trial: each completed month contributes
`(end − start) × account_size × profit_split` currency profit; a violation
stops the trial, forfeiting the partial month.  Returns the trial's total
currency profit and whether it violated. -/
def fundedMonths (ext : List ℚ) (rules : PropFirmRules) : ℕ → ℕ → ℚ → ℚ → ℚ × Bool
  | 0, _, _, profit => (profit, false)
  | rem + 1, mIdx, equity, profit =>
    let step := fundedDays ext rules (mIdx * 21) 21 equity
    if step.2 then (profit, true)
    else fundedMonths ext rules rem (mIdx + 1) step.1
           (profit + (step.1 - equity) * rules.account_size * rules.profit_split)

/-- Aggregate result of `_simulate_funded_account`. -/
structure FundedResult where
  violation_rate : ℚ
  survival_rate : ℚ
  expected_monthly_profit : ℚ
  total_profit_mean : ℚ
  total_profit_p10 : ℚ
  total_profit_p25 : ℚ
  total_profit_p50 : ℚ
  total_profit_p75 : ℚ
  total_profit_p90 : ℚ
deriving DecidableEq

/-- Embedding of `_simulate_funded_account`.  The per-trial tiled-and-shuffled
return paths (`np.tile` followed by `np.random.shuffle`, truncated to
`months × 21` days) are supplied explicitly as `paths`. -/
def simulate_funded_account (paths : List (List ℚ)) (rules : PropFirmRules)
    (months : ℕ := 12) : FundedResult :=
  let trials := paths.map (fun ext => fundedMonths ext rules months 0 1 0)
  let profits := trials.map Prod.fst
  let nViol : ℚ := (trials.filter Prod.snd).length
  let n : ℚ := paths.length
  { violation_rate := nViol / n
    survival_rate := 1 - nViol / n
    expected_monthly_profit :=
      if profits.any (fun p => 0 < p)
      then qmean ((profits.filter (fun p => 0 < p)).map (fun p => p / (months : ℚ)))
      else 0
    total_profit_mean := qmean profits
    total_profit_p10 := npPercentile profits 10
    total_profit_p25 := npPercentile profits 25
    total_profit_p50 := npPercentile profits 50
    total_profit_p75 := npPercentile profits 75
    total_profit_p90 := npPercentile profits 90 }

/-- Verdict record returned by `_generate_recommendation`. -/
structure Recommendation where
  verdict : String
  color : String
  description : String
deriving DecidableEq

/-- Embedding of `_generate_recommendation`. -/
def generate_recommendation (pass_rate break_even roi : ℚ) : Recommendation :=
  if roi > 2 then
    { verdict := "HIGHLY RECOMMENDED", color := "green",
      description := "Strong positive expected value. Strategy is well-suited for this challenge." }
  else if roi > 1/2 then
    { verdict := "RECOMMENDED", color := "green",
      description := "Positive expected value. Worth attempting with proper risk management." }
  else if roi > 0 then
    { verdict := "MARGINAL", color := "yellow",
      description := "Slightly positive EV but tight margins. Consider optimizing strategy first." }
  else if pass_rate > break_even * (8/10) then
    { verdict := "NOT RECOMMENDED", color := "orange",
      description := "Negative expected value but close to break-even. Minor improvements could help." }
  else
    { verdict := "AVOID", color := "red",
      description := "Significantly negative expected value. Strategy needs major improvements." }

/-- Result record of `_calculate_expected_value`. -/
structure ExpectedValue where
  expected_value : ℚ
  roi : ℚ
  break_even_pass_rate : ℚ
  current_pass_rate : ℚ
  edge_over_break_even : ℚ
  recommendation : Recommendation
deriving DecidableEq

/-- Embedding of `_calculate_expected_value`. -/
def calculate_expected_value (combined_pass_rate : ℚ) (funded : FundedResult)
    (rules : PropFirmRules) : ExpectedValue :=
  let expected_funded_profit := funded.total_profit_mean
  let ev := combined_pass_rate * expected_funded_profit - rules.challenge_cost
  let break_even := if expected_funded_profit > 0
    then rules.challenge_cost / expected_funded_profit else 1
  let roi := if rules.challenge_cost > 0 then ev / rules.challenge_cost else 0
  { expected_value := ev
    roi := roi
    break_even_pass_rate := break_even
    current_pass_rate := combined_pass_rate
    edge_over_break_even := combined_pass_rate - break_even
    recommendation := generate_recommendation combined_pass_rate break_even roi }

/-- Full challenge report built by `simulate_challenge`. -/
structure ChallengeResult where
  prop_firm : String
  account_size : ℚ
  challenge_cost : ℚ
  phase1 : PhaseResult
  phase2 : Option PhaseResult
  combined_pass_rate : ℚ
  funded_simulation : FundedResult
  expected_value : ExpectedValue
deriving DecidableEq

/-- Explicit randomness consumed by `simulate_challenge`: the per-trial
shuffled paths for phase 1, phase 2 and the funded-account simulation. -/
structure PropRng where
  phase1_shuffles : List (List ℚ)
  phase2_shuffles : List (List ℚ)
  funded_paths : List (List ℚ)

/-- Embedding of `PropFirmSimulator.simulate_challenge`.  The source first
evaluates `rules = custom_rules or PROP_FIRM_CONFIGS[prop_firm]`; with no
custom rules, the dictionary lookup raises `KeyError` whenever the key does
not compare equal to any stored key (see `pyEnumEqSchemaSim`).  On success it
runs phase 1, phase 2 when `profit_target_phase2 > 0`, multiplies the pass
rates, and attaches the funded simulation and expected-value report. -/
def simulate_challenge (rng : PropRng) (_daily_returns : List ℚ)
    (prop_firm : SchemasPropFirmType) (custom_rules : Option PropFirmRules) :
    Except PyException ChallengeResult :=
  match (match custom_rules with
         | some r => some r
         | none => configLookup prop_firm) with
  | none => .error (.keyErrorPropFirm prop_firm)
  | some rules =>
    let phase1 := simulate_phase rng.phase1_shuffles rules.profit_target_phase1
      rules.max_daily_drawdown rules.max_total_drawdown rules.min_trading_days
      rules.trailing_drawdown rules.consistency_rule
    let phase2 := if rules.profit_target_phase2 > 0
      then some (simulate_phase rng.phase2_shuffles rules.profit_target_phase2
        rules.max_daily_drawdown rules.max_total_drawdown rules.min_trading_days
        rules.trailing_drawdown rules.consistency_rule)
      else none
    let combined := phase1.pass_rate *
      (match phase2 with | some p => p.pass_rate | none => 1)
    let funded := simulate_funded_account rng.funded_paths rules 12
    .ok
      { prop_firm := rules.name
        account_size := rules.account_size
        challenge_cost := rules.challenge_cost
        phase1 := phase1
        phase2 := phase2
        combined_pass_rate := combined
        funded_simulation := funded
        expected_value := calculate_expected_value combined funded rules }

/-- FastAPI-level outcome of a request: a 200 body, a 400 with a string
detail (`HTTPException(status_code=400, detail=str(e))` for `ValueError`),
or a 500 carrying the exception (`HTTPException(status_code=500, ...)`). -/
inductive HttpResponse (α : Type) where
  | ok (body : α)
  | clientError (detail : String)
  | serverError (err : PyException)

/-- Status code of a response. -/
def HttpResponse.status {α : Type} : HttpResponse α → ℕ
  | .ok _ => 200
  | .clientError _ => 400
  | .serverError _ => 500

/-- Embedding of the validated `PropFirmRequest` schema. -/
structure PropFirmRequest where
  daily_returns : List ℚ
  prop_firm : SchemasPropFirmType
  n_simulations : ℕ := 10000

/-- Embedding of the `POST /prop-firm/simulate` handler `simulate_prop_firm`:
it calls `simulate_challenge` with no custom rules and translates a raised
`ValueError` to HTTP 400 and any other exception to HTTP 500. -/
def simulate_prop_firm (rng : PropRng) (request : PropFirmRequest) :
    HttpResponse ChallengeResult :=
  match simulate_challenge rng request.daily_returns request.prop_firm none with
  | .ok r => .ok r
  | .error (.valueError m) => .clientError m
  | .error e => .serverError e

/-! ## Backtest service (`app/services/backtest_service.py`) -/

/-- Embedding of `data['close'].rolling(w).mean()` evaluated at bar `i`:
defined (non-`NaN`) exactly when the window of `w` bars ending at `i` lies
inside the series. -/
def smaAt (closes : List ℚ) (w : ℕ) (i : ℕ) : Option ℚ :=
  if w ≤ i + 1 ∧ i < closes.length then
    some ((((List.range w).map (fun k => closes.getD (i - k) 0)).sum) / w)
  else none

/-- Pandas/numpy float comparison with `NaN` semantics: any comparison
involving a missing value is `False`. -/
def pyGt : Option ℚ → Option ℚ → Bool
  | some a, some b => a > b
  | _, _ => false

/-- Strict less-than with `NaN`-is-`False` semantics. -/
def pyLt : Option ℚ → Option ℚ → Bool
  | some a, some b => a < b
  | _, _ => false

/-- Less-or-equal with `NaN`-is-`False` semantics. -/
def pyLe : Option ℚ → Option ℚ → Bool
  | some a, some b => a ≤ b
  | _, _ => false

/-- The open-position dictionary held by `_simulate_trades`. -/
structure BtPosition where
  entry_time : ℕ
  entry_price : ℚ
deriving DecidableEq

/-- One recorded trade (times are bar indices standing for the timestamp
index of the fetched series). -/
structure BtTrade where
  entry_time : ℕ
  exit_time : ℕ
  pnl : ℚ
  return_pct : ℚ
deriving DecidableEq

/-- One iteration of the `_simulate_trades` scan loop at bar `i`: while flat,
open a long when the 9-bar average is strictly above the 21-bar average at
`i` having been at-or-below at `i − 1`; while long, close when the fast
average is strictly below the slow one, recording the trade. -/
def simStep (closes : List ℚ) (initial_capital : ℚ)
    (st : List BtTrade × Option BtPosition) (i : ℕ) :
    List BtTrade × Option BtPosition :=
  match st.2 with
  | none =>
    if pyGt (smaAt closes 9 i) (smaAt closes 21 i) &&
       pyLe (smaAt closes 9 (i - 1)) (smaAt closes 21 (i - 1))
    then (st.1, some { entry_time := i, entry_price := closes.getD i 0 })
    else st
  | some position =>
    if pyLt (smaAt closes 9 i) (smaAt closes 21 i) then
      let exit_price := closes.getD i 0
      let pnl := exit_price - position.entry_price
      (st.1 ++ [{ entry_time := position.entry_time, exit_time := i,
                  pnl := pnl * (initial_capital / position.entry_price),
                  return_pct := pnl / position.entry_price }], none)
    else st

/-- Bar indices scanned by `_simulate_trades`: Python `range(21, len(data) - 1)`,
i.e. `21, …, len − 2`. -/
def scanIndices (n : ℕ) : List ℕ := List.range' 21 (n - 1 - 21)

/-- The full scan of `_simulate_trades`, keeping the final loop state: the
recorded trades and the possibly still-open position. -/
def simulate_loop (closes : List ℚ) (initial_capital : ℚ) :
    List BtTrade × Option BtPosition :=
  (scanIndices closes.length).foldl (simStep closes initial_capital) ([], none)

/-- Embedding of `_simulate_trades`: the function returns only the recorded
trades; the final loop state's open position, if any, is dropped. -/
def simulate_trades (closes : List ℚ) (initial_capital : ℚ) : List BtTrade :=
  (simulate_loop closes initial_capital).1

/-- Label of an equity-curve point: the synthetic start marker or a trade's
exit timestamp. -/
inductive EqLabel where
  | start
  | exitAt (t : ℕ)
deriving DecidableEq

/-- Trailing points of the equity curve: cumulative post-trade equity. -/
def equityCurveAux (equity : ℚ) : List BtTrade → List (EqLabel × ℚ)
  | [] => []
  | t :: ts => (EqLabel.exitAt t.exit_time, equity + t.pnl) :: equityCurveAux (equity + t.pnl) ts

/-- Embedding of `_calculate_equity_curve`. -/
def calculate_equity_curve (trades : List BtTrade) (initial_capital : ℚ) :
    List (EqLabel × ℚ) :=
  (EqLabel.start, initial_capital) :: equityCurveAux initial_capital trades

/-- Running maximum (`np.maximum.accumulate`) starting from `cur`. -/
def runningMaxAux (cur : ℚ) : List ℚ → List ℚ
  | [] => []
  | y :: ys => max cur y :: runningMaxAux (max cur y) ys

/-- Embedding of `np.maximum.accumulate` over a list. -/
def runningMax : List ℚ → List ℚ
  | [] => []
  | x :: xs => x :: runningMaxAux x xs

/-- Performance metrics of `_calculate_metrics`; the annualized Sharpe ratio
is real-valued (it multiplies by `√252`), all other metrics are exact. -/
structure BtMetrics where
  total_return : ℚ
  sharpe_ratio : ℝ
  max_drawdown : ℚ
  win_rate : ℚ
  profit_factor : ℚ

/-- Embedding of `_calculate_metrics`: all-zero when no trade exists,
otherwise total return from the final equity-curve point, annualized Sharpe
`mean/std·√252` (0 when the standard deviation vanishes), maximum drawdown
over the equity curve, win rate, and profit factor (0 when there is no
losing trade). -/
noncomputable def calculate_metrics (trades : List BtTrade)
    (equity_curve : List (EqLabel × ℚ)) (initial_capital : ℚ) : BtMetrics :=
  if trades.isEmpty then
    { total_return := 0, sharpe_ratio := 0, max_drawdown := 0,
      win_rate := 0, profit_factor := 0 }
  else
    let returns := trades.map BtTrade.return_pct
    let pnls := trades.map BtTrade.pnl
    let final_equity := ((equity_curve.getLast?).getD (EqLabel.start, 0)).2
    let stdR : ℝ := Real.sqrt ((popVar returns : ℚ) : ℝ)
    let equities := equity_curve.map Prod.snd
    let drawdowns := List.zipWith (fun m e => (m - e) / m) (runningMax equities) equities
    let wins := (pnls.filter (fun p => 0 < p)).length
    let gross_profit := (pnls.filter (fun p => 0 < p)).sum
    let gross_loss := |(pnls.filter (fun p => p < 0)).sum|
    { total_return := (final_equity - initial_capital) / initial_capital
      sharpe_ratio := if 0 < stdR then ((qmean returns : ℚ) : ℝ) / stdR * Real.sqrt 252 else 0
      max_drawdown := listMax drawdowns
      win_rate := if pnls.isEmpty then 0 else (wins : ℚ) / (pnls.length : ℚ)
      profit_factor := if 0 < gross_loss then gross_profit / gross_loss else 0 }

/-! ## Edge discovery service (`app/services/edge_discovery.py`) -/

/-- Raw value of `closes.pct_change(k)` at index `t` (used only where the
window is known to be defined). -/
def pctChangeVal (closes : List ℚ) (k t : ℕ) : ℚ :=
  (closes.getD t 0 - closes.getD (t - k) 0) / closes.getD (t - k) 0

/-- Embedding of `Series.pct_change(k)` at index `t`: `NaN` (`none`) for the
first `k` indices and outside the series. -/
def pct_change (closes : List ℚ) (k t : ℕ) : Option ℚ :=
  if 1 ≤ k ∧ k ≤ t ∧ t < closes.length then some (pctChangeVal closes k t) else none

/-- Embedding of `Series.shift(k)` (positive lag) on an index-function
representation of a series. -/
def seriesShift (s : ℕ → Option ℚ) (k t : ℕ) : Option ℚ :=
  if k ≤ t then s (t - k) else none

/-- Embedding of `prices['close'].pct_change(1).rolling(20).std()` at index
`t`: the sample standard deviation (`ddof=1`) of the 20 one-bar returns
ending at `t`, defined for `20 ≤ t < len`. -/
noncomputable def rolling_vol20 (closes : List ℚ) (t : ℕ) : Option ℝ :=
  if 20 ≤ t ∧ t < closes.length then
    some (Real.sqrt ((sampleVar ((List.range 20).map (fun j => pctChangeVal closes 1 (t - j))) : ℚ) : ℝ))
  else none

/-- The six-column per-bar matrix built by `_create_feature_matrix`. -/
structure EdgeFeatureMatrix where
  feature : ℕ → Option ℚ
  feature_lag1 : ℕ → Option ℚ
  feature_lag2 : ℕ → Option ℚ
  returns_1d : ℕ → Option ℚ
  returns_5d : ℕ → Option ℚ
  volatility : ℕ → Option ℝ

/-- Embedding of `_create_feature_matrix`: the feature, its 1- and 2-bar
lags, `pct_change(1)`, `pct_change(5)` and the 20-bar rolling standard
deviation of 1-bar returns. -/
noncomputable def create_feature_matrix (feature : ℕ → Option ℚ) (closes : List ℚ) :
    EdgeFeatureMatrix :=
  { feature := feature
    feature_lag1 := seriesShift feature 1
    feature_lag2 := seriesShift feature 2
    returns_1d := pct_change closes 1
    returns_5d := pct_change closes 5
    volatility := rolling_vol20 closes }

/-- Embedding of the ML label `(prices['close'].pct_change(1).shift(-1) > 0).astype(int)`
at index `t`; a missing forward return compares as `False`, hence label 0. -/
def ml_label (closes : List ℚ) (t : ℕ) : ℕ :=
  if t < closes.length then
    match pct_change closes 1 (t + 1) with
    | some r => if 0 < r then 1 else 0
    | none => 0
  else 0

/-- Modelled from the spec's words: the `k`-bar *forward* return at `t`,
`pct_change(k).shift(-k)`, i.e. `(close[t+k] − close[t]) / close[t]`.  This
is the claimed content of the matrix's return columns, to be compared with
the source's `pct_change` columns. -/
def forward_return_spec (closes : List ℚ) (k t : ℕ) : Option ℚ :=
  pct_change closes k (t + k)

/-- Signal group of the t-test in `_run_statistical_tests`: the cleaned
forward returns at positions where the cleaned feature is strictly above its
median. -/
def signal_returns (feature_clean returns_1d_clean : List ℚ) : List ℚ :=
  ((feature_clean.zip returns_1d_clean).filter
    (fun p => pandasMedian feature_clean < p.1)).map Prod.snd

/-- No-signal group: positions where the cleaned feature is at-or-below its
median. -/
def no_signal_returns (feature_clean returns_1d_clean : List ℚ) : List ℚ :=
  ((feature_clean.zip returns_1d_clean).filter
    (fun p => p.1 ≤ pandasMedian feature_clean)).map Prod.snd

/-- The t-statistic of `scipy.stats.ttest_ind(a, b)` with its default
`equal_var=True`: the *pooled-variance* (standard Student) two-sample
statistic `(mean a − mean b) / √(sp² (1/n1 + 1/n2))` with
`sp² = ((n1−1)s1² + (n2−1)s2²) / (n1+n2−2)`. -/
noncomputable def ttest_ind_t (a b : List ℚ) : ℝ :=
  let n1 : ℚ := a.length
  let n2 : ℚ := b.length
  let sp2 : ℚ := ((n1 - 1) * sampleVar a + (n2 - 1) * sampleVar b) / (n1 + n2 - 2)
  ((qmean a - qmean b : ℚ) : ℝ) / Real.sqrt ((sp2 * (1 / n1 + 1 / n2) : ℚ) : ℝ)

/-- Embedding of the t-test portion of `_run_statistical_tests` (the median
split followed by `stats.ttest_ind`, or `(0.0, 1.0)` when either group has
at most one observation).  `tsf` is the Student-t survival function boundary
(`scipy` forms the two-sided p-value from it with `n1+n2−2` degrees of
freedom under `equal_var=True`). -/
noncomputable def ttest_section (tsf : ℝ → ℕ → ℝ) (feature_clean returns_1d_clean : List ℚ) :
    ℝ × ℝ :=
  let sig := signal_returns feature_clean returns_1d_clean
  let nosig := no_signal_returns feature_clean returns_1d_clean
  if 1 < sig.length ∧ 1 < nosig.length then
    let t := ttest_ind_t sig nosig
    (t, 2 * tsf |t| (sig.length + nosig.length - 2))
  else (0, 1)

/-- Modelled from the spec's words: the *Welch* (unequal-variance) two-sample
t-statistic `(mean a − mean b) / √(s1²/n1 + s2²/n2)`, which §4.5 claims the
statistical stage uses. -/
noncomputable def welch_t_statistic_spec (a b : List ℚ) : ℝ :=
  ((qmean a - qmean b : ℚ) : ℝ) /
    Real.sqrt ((sampleVar a / a.length + sampleVar b / b.length : ℚ) : ℝ)

/-- Embedding of the Wilder-style RSI gain series
`(delta.where(delta > 0, 0)).rolling(period).mean()` at index `t`. -/
def rsi_gain (closes : List ℚ) (period t : ℕ) : Option ℚ :=
  if 1 ≤ period ∧ period ≤ t ∧ t < closes.length then
    some ((((List.range period).map
      (fun j => max (closes.getD (t - j) 0 - closes.getD (t - j - 1) 0) 0)).sum) / period)
  else none

/-- Embedding of the RSI loss series
`(-delta.where(delta < 0, 0)).rolling(period).mean()` at index `t`. -/
def rsi_loss (closes : List ℚ) (period t : ℕ) : Option ℚ :=
  if 1 ≤ period ∧ period ≤ t ∧ t < closes.length then
    some ((((List.range period).map
      (fun j => max (closes.getD (t - j - 1) 0 - closes.getD (t - j) 0) 0)).sum) / period)
  else none

/-- Embedding of the RSI feature `100 − 100/(1 + gain/loss)` at index `t`,
with IEEE division semantics at the boundary: a positive gain over a zero
loss gives `rs = +inf`, hence RSI `100`; `0/0` gives `NaN` (`none`); an
incomplete rolling window gives `NaN` (`none`). -/
def rsi_at (closes : List ℚ) (period t : ℕ) : Option ℚ :=
  match rsi_gain closes period t, rsi_loss closes period t with
  | some g, some l =>
    if 0 < l then some (100 - 100 / (1 + g / l))
    else if 0 < g then some 100
    else none
  | _, _ => none

/-- Result record of `_bootstrap_analysis`. -/
structure EdgeCI where
  mean_return : ℚ
  ci_lower_95 : ℚ
  ci_upper_95 : ℚ
  ci_lower_99 : ℚ
  ci_upper_99 : ℚ
  probability_positive : ℚ
deriving DecidableEq

/-- Signal-conditioned forward returns used by `_bootstrap_analysis`:
`returns[feature > feature.median()].dropna()`, where the median skips the
feature's missing values and a missing feature value never passes the
comparison. -/
def bootstrap_signal_returns (feature : List (Option ℚ)) (closes : List ℚ) : List ℚ :=
  let med := pandasMedian (feature.filterMap id)
  (List.range closes.length).filterMap (fun t =>
    match feature.getD t none with
    | some v => if med < v then pct_change closes 1 (t + 1) else none
    | none => none)

/-- Embedding of `_bootstrap_analysis`: the neutral result when fewer than 10
signal observations exist, otherwise percentile confidence bounds over the
resample means.  The resampling randomness (`np.random.choice`) is supplied
explicitly as one index list per iteration. -/
def bootstrap_analysis (feature : List (Option ℚ)) (closes : List ℚ)
    (resampleIdx : List (List ℕ)) : EdgeCI :=
  let sr := bootstrap_signal_returns feature closes
  if sr.length < 10 then
    { mean_return := 0, ci_lower_95 := 0, ci_upper_95 := 0,
      ci_lower_99 := 0, ci_upper_99 := 0, probability_positive := 1/2 }
  else
    let means := resampleIdx.map (fun ix => qmean (ix.map (fun i => sr.getD i 0)))
    { mean_return := qmean means
      ci_lower_95 := npPercentile means (5/2)
      ci_upper_95 := npPercentile means (195/2)
      ci_lower_99 := npPercentile means (1/2)
      ci_upper_99 := npPercentile means (199/2)
      probability_positive := ((means.filter (fun m => 0 < m)).length : ℚ) / means.length }

/-! ## Monte Carlo service (`app/services/monte_carlo_service.py`),
expectancy confidence intervals -/

/-- Result record of `_expectancy_confidence_intervals`; the four interval
pairs are the "80"/"90"/"95"/"99" entries of `confidence_intervals`. -/
structure McExpectancyCI where
  mean : ℚ
  ci80_lo : ℚ
  ci80_hi : ℚ
  ci90_lo : ℚ
  ci90_hi : ℚ
  ci95_lo : ℚ
  ci95_hi : ℚ
  ci99_lo : ℚ
  ci99_hi : ℚ
  probability_positive : ℚ
deriving DecidableEq

/-- Embedding of `MonteCarloService._expectancy_confidence_intervals`:
bootstrap resample means of the trade returns (resampling randomness supplied
as index lists), summarized by two-sided percentile intervals. -/
def expectancy_confidence_intervals (returns : List ℚ)
    (resampleIdx : List (List ℕ)) : McExpectancyCI :=
  let bootstrap_means := resampleIdx.map (fun ix => qmean (ix.map (fun i => returns.getD i 0)))
  { mean := qmean returns
    ci80_lo := npPercentile bootstrap_means 10
    ci80_hi := npPercentile bootstrap_means 90
    ci90_lo := npPercentile bootstrap_means 5
    ci90_hi := npPercentile bootstrap_means 95
    ci95_lo := npPercentile bootstrap_means (5/2)
    ci95_hi := npPercentile bootstrap_means (195/2)
    ci99_lo := npPercentile bootstrap_means (1/2)
    ci99_hi := npPercentile bootstrap_means (199/2)
    probability_positive :=
      ((bootstrap_means.filter (fun m => 0 < m)).length : ℚ) / bootstrap_means.length }

/-! ## Regression service (`app/services/regression_service.py`) -/

/-- Numeric/boundary dependencies of `RegressionService.analyze`, supplied
explicitly: the standard-normal draws behind `np.random.randn` (drawn per
synthetic column and observation), the `np.linalg.lstsq` solver (which the
source wraps in a bare `except` returning the empty result), the Student-t
cumulative distribution `scipy.stats.t.cdf`, and the p-value produced by
`scipy.stats.normaltest` on samples large enough for it to be defined. -/
structure RegBoundary where
  randn : ℕ → ℕ → ℚ
  lstsq : List (Fin 5 → ℚ) → List ℚ → Except PyException (Fin 5 → ℚ)
  t_cdf : ℝ → ℤ → ℝ
  normaltest_p : List ℚ → ℝ

/-- Embedding of `scipy.stats.normaltest` on the residual vector: per the
scipy contract, the underlying skewness test raises `ValueError` for fewer
than 8 observations; otherwise the test returns a p-value (boundary). -/
def scipy_normaltest (b : RegBoundary) (xs : List ℚ) : Except PyException ℝ :=
  if xs.length < 8 then
    .error (.valueError "skewtest is not valid with less than 8 samples")
  else .ok (b.normaltest_p xs)

/-- Extraction `[t.get(\"return_pct\", 0) for t in trades]`: a trade dict
either carries a rational under the `return_pct` key or defaults to 0. -/
def extract_returns (trades : List (Option ℚ)) : List ℚ :=
  trades.map (fun t => t.getD 0)

/-- Value of the `k`-th synthetic explanatory series at observation `i`
(`np.random.randn(n) * scale + loc` with the literal scales/locations of the
source: volatility, trend strength, volume ratio, RSI level). -/
def synthetic_feature (b : RegBoundary) (k i : ℕ) : ℚ :=
  match k with
  | 0 => b.randn 0 i * (1/10) + 15/100
  | 1 => b.randn 1 i * 10 + 30
  | 2 => b.randn 2 i * (1/2) + 3/2
  | 3 => b.randn 3 i * 10 + 50
  | _ => 0

/-- The design matrix `X = [intercept, volatility, trend, volume, rsi]`,
one row per observation. -/
def design_matrix (b : RegBoundary) (n : ℕ) : List (Fin 5 → ℚ) :=
  (List.range n).map (fun i =>
    ![1, synthetic_feature b 0 i, synthetic_feature b 1 i,
      synthetic_feature b 2 i, synthetic_feature b 3 i])

/-- The four factor names, in source order. -/
def REG_FACTOR_NAMES : List String :=
  ["volatility", "trend_strength", "volume_ratio", "rsi_level"]

/-- Embedding of the significance marker ladder. -/
noncomputable def significance_marker (p : ℝ) : String :=
  if p < 1/100 then "***" else if p < 5/100 then "**" else if p < 1/10 then "*" else ""

/-- Embedding of the factor-record loop of `analyze`: for each of the four
named factors, a Python dict with keys `name`, `coefficient`, `p_value` and
`significance`; the t-statistic `coef / (std(returns)/√n)` is computed and
feeds the two-tailed p-value `2·(1 − t.cdf(|t|, n − 5))` but is not itself
stored in the dict. -/
noncomputable def factor_records (b : RegBoundary) (returns : List ℚ)
    (coeffs : Fin 5 → ℚ) : List (List (String × PyVal)) :=
  (List.finRange 4).map (fun i =>
    let coef := coeffs i.succ
    let t_stat : ℝ :=
      (coef : ℝ) / (Real.sqrt ((popVar returns : ℚ) : ℝ) / Real.sqrt (returns.length : ℝ))
    let p_value : ℝ := 2 * (1 - b.t_cdf |t_stat| ((returns.length : ℤ) - 5))
    [("name", PyVal.str (REG_FACTOR_NAMES.getD i.val "")),
     ("coefficient", PyVal.num (coef : ℝ)),
     ("p_value", PyVal.num p_value),
     ("significance", PyVal.str (significance_marker p_value))])

/-- Result record of `RegressionService.analyze`. -/
structure RegResult where
  r_squared : ℚ
  adjusted_r_squared : ℚ
  factors : List (List (String × PyVal))
  residuals_normality : Bool
  durbin_watson : ℚ

/-- Embedding of `_empty_result`. -/
def empty_result : RegResult :=
  { r_squared := 0, adjusted_r_squared := 0, factors := [],
    residuals_normality := false, durbin_watson := 0 }

/-- First differences `np.diff`. -/
def listDiff (xs : List ℚ) : List ℚ :=
  List.zipWith (fun a b => b - a) xs (xs.drop 1)

/-- Embedding of `RegressionService.analyze`: empty result for an empty
trade list or a failing least-squares call; otherwise R², adjusted R², the
four factor records, the Durbin-Watson statistic, and the residual-normality
flag — the last of which calls `scipy.stats.normaltest` on the residual
vector, which raises for fewer than 8 observations (see `scipy_normaltest`);
that call sits outside the source's `try/except`, so the exception
propagates out of `analyze`. -/
noncomputable def analyze (b : RegBoundary) (trades : List (Option ℚ))
    (_features : List String) : Except PyException RegResult :=
  if trades.isEmpty then .ok empty_result
  else
    let returns := extract_returns trades
    let n := returns.length
    let X := design_matrix b n
    match b.lstsq X returns with
    | .error _ => .ok empty_result
    | .ok coeffs =>
      let fitted := X.map (fun row => ∑ j : Fin 5, coeffs j * row j)
      let residuals := List.zipWith (fun r f => r - f) returns fitted
      let ss_res := (residuals.map (fun x => x ^ 2)).sum
      let ss_tot := (returns.map (fun x => (x - qmean returns) ^ 2)).sum
      let r_squared : ℚ := if 0 < ss_tot then 1 - ss_res / ss_tot else 0
      let adj : ℚ := 1 - (1 - r_squared) * ((n : ℚ) - 1) / ((n : ℚ) - 5 - 1)
      let dw : ℚ := ((listDiff residuals).map (fun x => x ^ 2)).sum / ss_res
      match scipy_normaltest b residuals with
      | .error e => .error e
      | .ok pn =>
        .ok { r_squared := r_squared
              adjusted_r_squared := adj
              factors := factor_records b returns coeffs
              residuals_normality := if (5/100 : ℝ) < pn then true else false
              durbin_watson := dw }

/-- A concrete boundary instance: zero normal draws, a least-squares solver
returning the all-zero coefficient vector, and constant-½ distribution
boundaries. -/
noncomputable def regBoundary0 : RegBoundary :=
  { randn := fun _ _ => 0, lstsq := fun _ _ => .ok (fun _ => 0),
    t_cdf := fun _ _ => 1/2, normaltest_p := fun _ => 1/2 }

/-- A concrete boundary instance whose least-squares solver returns the
all-five coefficient vector. -/
noncomputable def regBoundary5 : RegBoundary :=
  { randn := fun _ _ => 0, lstsq := fun _ _ => .ok (fun _ => 5),
    t_cdf := fun _ _ => 1/2, normaltest_p := fun _ => 1/2 }

/-- A concrete nine-trade list whose returns are `[3,−3,3,−3,0,0,0,0,0]`:
mean 0, population variance 4, hence `np.std = 2` and `√n = 3`. -/
def regTrades9 : List (Option ℚ) :=
  [some 3, some (-3), some 3, some (-3), some 0, some 0, some 0, some 0, some 0]

/-- Linear interpolation step shared by `npPercentile`; factored out so its
monotonicity can be proved once. -/
def interpAt (s : List ℚ) (h : ℚ) : ℚ :=
  let n := s.length
  let i : ℕ := min ⌊h⌋.toNat (n - 1)
  let j : ℕ := min (i + 1) (n - 1)
  s.getD i 0 + (h - (i : ℚ)) * (s.getD j 0 - s.getD i 0)

/-- Property of one recorded moving-average-crossover trade, as described by
the specification: the trade was entered and exited inside the scanned range
`21 … len−2`, entry happened on an upward fast/slow crossover (strictly above
on the entry bar, at-or-below on the prior bar), exit happened when the fast
average was strictly below the slow one, and the profit and return carry the
full-deployment sizing formulas. -/
def crossoverTradeSpec (closes : List ℚ) (cap : ℚ) (tr : BtTrade) : Prop :=
  21 ≤ tr.entry_time ∧ tr.entry_time < tr.exit_time ∧ tr.exit_time + 2 ≤ closes.length ∧
  pyGt (smaAt closes 9 tr.entry_time) (smaAt closes 21 tr.entry_time) = true ∧
  pyLe (smaAt closes 9 (tr.entry_time - 1)) (smaAt closes 21 (tr.entry_time - 1)) = true ∧
  pyLt (smaAt closes 9 tr.exit_time) (smaAt closes 21 tr.exit_time) = true ∧
  tr.pnl = (closes.getD tr.exit_time 0 - closes.getD tr.entry_time 0) *
    (cap / closes.getD tr.entry_time 0) ∧
  tr.return_pct = (closes.getD tr.exit_time 0 - closes.getD tr.entry_time 0) /
    closes.getD tr.entry_time 0

/-- Invariant carried by the still-open position during the scan. -/
def openPositionSpec (closes : List ℚ) (p : BtPosition) : Prop :=
  21 ≤ p.entry_time ∧ p.entry_time + 2 ≤ closes.length ∧
  pyGt (smaAt closes 9 p.entry_time) (smaAt closes 21 p.entry_time) = true ∧
  pyLe (smaAt closes 9 (p.entry_time - 1)) (smaAt closes 21 (p.entry_time - 1)) = true ∧
  p.entry_price = closes.getD p.entry_time 0

/-- A concrete 25-bar price series: 21 flat bars at 100, a spike to 200
(upward crossover at bar 21), then a collapse to 10 (downward crossover at
bar 23), producing exactly one completed trade. -/
def btClosesWitness : List ℚ :=
  [100, 100, 100, 100, 100, 100, 100, 100, 100, 100, 100,
   100, 100, 100, 100, 100, 100, 100, 100, 100, 100, 200, 10, 10, 10]

/-- The single trade recorded on `btClosesWitness`: entry at bar 21 (price
200), exit at bar 23 (price 10), `pnl = (10−200)·(10000/200) = −9500` and
return `(10−200)/200 = −19/20`. -/
def btTradeWitness : BtTrade :=
  { entry_time := 21, exit_time := 23, pnl := -9500, return_pct := -19/20 }

/-- A concrete 23-bar price series: 21 flat bars at 100 and a spike to 200 at
bar 21 — the scan consists of the single bar 21, a long is opened there, and
the data ends with the position still open. -/
def btClosesOpenEnd : List ℚ :=
  [100, 100, 100, 100, 100, 100, 100, 100, 100, 100, 100,
   100, 100, 100, 100, 100, 100, 100, 100, 100, 100, 200, 66]

/-- A concrete cleaned feature series (sorted, odd length: median 1, two
values strictly above it). -/
def ttestFeature0 : List ℚ := [1, 1, 1, 1, 1, 10, 10]

/-- The aligned cleaned forward-return series: the no-signal group becomes
`[4,4,4,4,4]` (variance 0) and the signal group `[0,2]` (variance 2). -/
def ttestReturns0 : List ℚ := [4, 4, 4, 4, 4, 0, 2]

/-- A concrete Student-t survival-function boundary (identically zero). -/
noncomputable def tsfZero : ℝ → ℕ → ℝ := fun _ _ => 0

/-! ## Theorems -/

theorem npPercentile_eq_interpAt (xs : List ℚ) (q : ℚ) :
    npPercentile xs q =
      if (xs.mergeSort (fun a b => a ≤ b)).length = 0 then 0
      else interpAt (xs.mergeSort (fun a b => a ≤ b))
        (q * (((xs.mergeSort (fun a b => a ≤ b)).length : ℚ) - 1) / 100) := by
  simp only [npPercentile, interpAt]

theorem sorted_getD_mono {s : List ℚ} (hs : List.Sorted (· ≤ ·) s) {i j : ℕ}
    (hij : i ≤ j) (hj : j < s.length) : s.getD i 0 ≤ s.getD j 0 := by
  have hi : i < s.length := lt_of_le_of_lt hij hj
  rw [List.getD_eq_getElem s 0 hi, List.getD_eq_getElem s 0 hj]
  have := hs.rel_get_of_le (a := ⟨i, hi⟩) (b := ⟨j, hj⟩) (Fin.mk_le_mk.mpr hij)
  simpa using this

theorem interpAt_mono {s : List ℚ} (hs : List.Sorted (· ≤ ·) s)
    (hne : s ≠ []) {h1 h2 : ℚ} (h0 : 0 ≤ h1) (h12 : h1 ≤ h2)
    (hub : h2 ≤ (s.length : ℚ) - 1) : interpAt s h1 ≤ interpAt s h2 := by
  have hn : 1 ≤ s.length := List.length_pos.mpr hne
  -- the floors lie in `[0, n-1]`, so the `min`s and `toNat`s are transparent
  have hfl : ∀ h : ℚ, 0 ≤ h → h ≤ (s.length : ℚ) - 1 →
      ⌊h⌋.toNat ≤ s.length - 1 ∧ ((min ⌊h⌋.toNat (s.length - 1) : ℕ) : ℚ) ≤ h := by
    intro h hh0 hhub
    have hfl0 : 0 ≤ ⌊h⌋ := Int.floor_nonneg.mpr hh0
    have hfle : ⌊h⌋ ≤ (s.length : ℤ) - 1 := by
      have := Int.floor_le_floor hhub
      rwa [show ((s.length : ℚ) - 1) = (((s.length : ℤ) - 1 : ℤ) : ℚ) by push_cast; ring,
        Int.floor_intCast] at this
    have h1' : ⌊h⌋.toNat ≤ s.length - 1 := by omega
    refine ⟨h1', ?_⟩
    rw [min_eq_left h1']
    have hcast : ((⌊h⌋.toNat : ℕ) : ℚ) = ((⌊h⌋ : ℤ) : ℚ) := by
      exact_mod_cast Int.toNat_of_nonneg hfl0
    rw [hcast]
    exact Int.floor_le h
  have hA := hfl h1 h0 (le_trans h12 hub)
  have hB := hfl h2 (le_trans h0 h12) hub
  set i1 : ℕ := min ⌊h1⌋.toNat (s.length - 1) with hi1
  set i2 : ℕ := min ⌊h2⌋.toNat (s.length - 1) with hi2
  set j1 : ℕ := min (i1 + 1) (s.length - 1) with hj1
  set j2 : ℕ := min (i2 + 1) (s.length - 1) with hj2
  have hi1lt : i1 < s.length := by omega
  have hi2lt : i2 < s.length := by omega
  have hj1lt : j1 < s.length := by omega
  have hj2lt : j2 < s.length := by omega
  have hi1j1 : i1 ≤ j1 := by omega
  have hi2j2 : i2 ≤ j2 := by omega
  have hab1 : s.getD i1 0 ≤ s.getD j1 0 := sorted_getD_mono hs hi1j1 hj1lt
  have hab2 : s.getD i2 0 ≤ s.getD j2 0 := sorted_getD_mono hs hi2j2 hj2lt
  -- the fractional parts lie in `[0, 1)`
  have hγ1lo : (0 : ℚ) ≤ h1 - (i1 : ℚ) := by have := hA.2; linarith
  have hγ2lo : (0 : ℚ) ≤ h2 - (i2 : ℚ) := by have := hB.2; linarith
  have hγ1hi : h1 - (i1 : ℚ) < 1 := by
    have hlt : h1 < ⌊h1⌋ + 1 := Int.lt_floor_add_one h1
    have hcast : ((i1 : ℕ) : ℚ) = (⌊h1⌋ : ℚ) := by
      rw [hi1, min_eq_left hA.1]
      exact_mod_cast Int.toNat_of_nonneg (Int.floor_nonneg.mpr h0)
    rw [hcast]; linarith
  have hγ2hi : h2 - (i2 : ℚ) < 1 := by
    have hlt : h2 < ⌊h2⌋ + 1 := Int.lt_floor_add_one h2
    have hcast : ((i2 : ℕ) : ℚ) = (⌊h2⌋ : ℚ) := by
      rw [hi2, min_eq_left hB.1]
      exact_mod_cast Int.toNat_of_nonneg (Int.floor_nonneg.mpr (le_trans h0 h12))
    rw [hcast]; linarith
  -- unfold the two interpolated values
  show s.getD i1 0 + (h1 - (i1 : ℚ)) * (s.getD j1 0 - s.getD i1 0) ≤
       s.getD i2 0 + (h2 - (i2 : ℚ)) * (s.getD j2 0 - s.getD i2 0)
  rcases lt_or_ge i1 i2 with hlt | hge
  · -- distinct cells: value₁ ≤ top of cell₁ ≤ bottom of cell₂ ≤ value₂
    have hj1i2 : j1 ≤ i2 := by omega
    have hmid : s.getD j1 0 ≤ s.getD i2 0 := sorted_getD_mono hs hj1i2 hi2lt
    have hup : s.getD i1 0 + (h1 - (i1 : ℚ)) * (s.getD j1 0 - s.getD i1 0) ≤ s.getD j1 0 := by
      nlinarith [hγ1hi, hab1, hγ1lo]
    have hlo : s.getD i2 0 ≤ s.getD i2 0 + (h2 - (i2 : ℚ)) * (s.getD j2 0 - s.getD i2 0) := by
      nlinarith [hγ2lo, hab2]
    linarith
  · -- same cell: `i1 = i2`, compare fractional parts
    have hle12 : i1 ≤ i2 := by
      have : ⌊h1⌋ ≤ ⌊h2⌋ := Int.floor_le_floor h12
      have : ⌊h1⌋.toNat ≤ ⌊h2⌋.toNat := Int.toNat_le_toNat this
      omega
    have heq : i1 = i2 := le_antisymm hle12 hge
    have hjeq : j1 = j2 := by omega
    rw [heq, hjeq]
    have hγle : h1 - (i2 : ℚ) ≤ h2 - (i2 : ℚ) := by linarith
    nlinarith [hab2, hγle, sub_nonneg.mpr hab2]

theorem npPercentile_mono (xs : List ℚ) {q1 q2 : ℚ} (hq0 : 0 ≤ q1)
    (hq12 : q1 ≤ q2) (hq100 : q2 ≤ 100) :
    npPercentile xs q1 ≤ npPercentile xs q2 := by
  rw [npPercentile_eq_interpAt, npPercentile_eq_interpAt]
  set s := xs.mergeSort (fun a b => a ≤ b) with hsdef
  have hsorted : List.Sorted (· ≤ ·) s := List.sorted_mergeSort' xs
  by_cases hn : s.length = 0
  · simp [hn]
  · have hne : s ≠ [] := by
      intro h; rw [h] at hn; simp at hn
    have hn1 : (1 : ℚ) ≤ (s.length : ℚ) := by
      have : 1 ≤ s.length := Nat.one_le_iff_ne_zero.mpr hn
      exact_mod_cast this
    simp only [hn, if_false]
    have hnn : (0 : ℚ) ≤ (s.length : ℚ) - 1 := by linarith
    apply interpAt_mono hsorted hne
    · exact div_nonneg (mul_nonneg hq0 hnn) (by norm_num)
    · exact (div_le_div_iff_of_pos_right (by norm_num)).mpr
        (mul_le_mul_of_nonneg_right hq12 hnn)
    · have hmul : q2 * ((s.length : ℚ) - 1) ≤ 100 * ((s.length : ℚ) - 1) :=
        mul_le_mul_of_nonneg_right hq100 hnn
      linarith

/-- Claim C1.  The claim states that a `POST /prop-firm/simulate` request for
the enumerated-but-unconfigured firm `mff` yields an HTTP 400 client error
whose detail names the identifier as an unsupported prop firm.  The code
instead raises `KeyError`: `simulate_challenge` looks the schemas-enum member
up in a dictionary keyed by the simulator module's distinct enum, the lookup
finds no equal key, and the router's `except ValueError` clause does not
match a `KeyError`, so the handler answers HTTP 500 — for every request body
and every random draw.  (The repository's own tests
`test_prop_firm_simulate_unsupported_firm` and
`test_prop_firm_simulator_unsupported_raises` expect the 400 /
`ValueError(\"Unsupported prop firm ...\")` behaviour the claim describes.) -/
theorem prop_firm_mff_simulate_is_server_error (rng : PropRng) (dr : List ℚ) (n : ℕ) :
    simulate_prop_firm rng { daily_returns := dr, prop_firm := .mff, n_simulations := n } =
      HttpResponse.serverError (PyException.keyErrorPropFirm .mff) ∧
    (simulate_prop_firm rng { daily_returns := dr, prop_firm := .mff, n_simulations := n }).status
      = 500 ∧
    ∀ s : String,
      simulate_prop_firm rng { daily_returns := dr, prop_firm := .mff, n_simulations := n } ≠
        HttpResponse.clientError s := by
  refine ⟨rfl, rfl, fun s h => ?_⟩
  simp [simulate_prop_firm, simulate_challenge, configLookup, PROP_FIRM_CONFIGS,
    pyEnumEqSchemaSim] at h

/-- Claim C2.  The claim states that a `POST /prop-firm/simulate` request for
a configured firm such as `ftmo` succeeds and reports a combined pass rate
equal to the product of the phase pass rates together with a recommendation
verdict.  The endpoint can in fact never succeed: the same cross-enum
dictionary lookup as in C1 raises `KeyError` for *every* firm identifier —
the stored keys hash and compare by the simulator enum, the probe by the
schemas enum — so the handler answers HTTP 500 for `ftmo` as well, for every
request body and every random draw.  (The repository's own tests
`test_prop_firm_simulate_smoke` and `test_prop_firm_simulator_ftmo` expect
the 200 behaviour the claim describes.) -/
theorem prop_firm_ftmo_simulate_is_server_error (rng : PropRng) (dr : List ℚ) (n : ℕ) :
    simulate_prop_firm rng { daily_returns := dr, prop_firm := .ftmo, n_simulations := n } =
      HttpResponse.serverError (PyException.keyErrorPropFirm .ftmo) ∧
    (simulate_prop_firm rng { daily_returns := dr, prop_firm := .ftmo, n_simulations := n }).status
      = 500 ∧
    ∀ r : ChallengeResult,
      simulate_prop_firm rng { daily_returns := dr, prop_firm := .ftmo, n_simulations := n } ≠
        HttpResponse.ok r := by
  refine ⟨rfl, rfl, fun r h => ?_⟩
  simp [simulate_prop_firm, simulate_challenge, configLookup, PROP_FIRM_CONFIGS,
    pyEnumEqSchemaSim] at h

/-- Claim C8.  For every input trade set (and every draw of the bootstrap
resampling randomness, supplied as nonempty index lists), both
bootstrap-derived expectancy confidence intervals — edge discovery's
`ci_lower_95/ci_upper_95` and `ci_lower_99/ci_upper_99`, and Monte Carlo's
"95" and "99" interval pairs — satisfy lower bound ≤ upper bound: the
percentile pairs (2.5, 97.5) and (0.5, 99.5) are ordered because numpy's
linear-interpolation percentile is monotone in the requested percentile, and
edge discovery's small-sample guard returns the all-zero interval. -/
theorem bootstrap_ci_lower_le_upper :
    (∀ (feature : List (Option ℚ)) (closes : List ℚ) (resampleIdx : List (List ℕ)),
      resampleIdx ≠ [] →
      (bootstrap_analysis feature closes resampleIdx).ci_lower_95 ≤
        (bootstrap_analysis feature closes resampleIdx).ci_upper_95 ∧
      (bootstrap_analysis feature closes resampleIdx).ci_lower_99 ≤
        (bootstrap_analysis feature closes resampleIdx).ci_upper_99) ∧
    (∀ (returns : List ℚ) (resampleIdx : List (List ℕ)), resampleIdx ≠ [] →
      (expectancy_confidence_intervals returns resampleIdx).ci95_lo ≤
        (expectancy_confidence_intervals returns resampleIdx).ci95_hi ∧
      (expectancy_confidence_intervals returns resampleIdx).ci99_lo ≤
        (expectancy_confidence_intervals returns resampleIdx).ci99_hi) := by
  constructor
  · intro feature closes resampleIdx _
    unfold bootstrap_analysis
    by_cases hguard : (bootstrap_signal_returns feature closes).length < 10
    · simp [hguard]
    · simp only [hguard, if_false]
      exact ⟨npPercentile_mono _ (by norm_num) (by norm_num) (by norm_num),
             npPercentile_mono _ (by norm_num) (by norm_num) (by norm_num)⟩
  · intro returns resampleIdx _
    exact ⟨npPercentile_mono _ (by norm_num) (by norm_num) (by norm_num),
           npPercentile_mono _ (by norm_num) (by norm_num) (by norm_num)⟩

/-- Witness for C8 at concrete inputs. -/
theorem bootstrap_ci_lower_le_upper_witness :
    (([[0]] : List (List ℕ)) ≠ [] ∧
      (bootstrap_analysis [] [] [[0]]).ci_lower_95 ≤
        (bootstrap_analysis [] [] [[0]]).ci_upper_95 ∧
      (bootstrap_analysis [] [] [[0]]).ci_lower_99 ≤
        (bootstrap_analysis [] [] [[0]]).ci_upper_99) ∧
    (([[0], [0]] : List (List ℕ)) ≠ [] ∧
      (expectancy_confidence_intervals [1/10, -1/5] [[0], [0]]).ci95_lo ≤
        (expectancy_confidence_intervals [1/10, -1/5] [[0], [0]]).ci95_hi ∧
      (expectancy_confidence_intervals [1/10, -1/5] [[0], [0]]).ci99_lo ≤
        (expectancy_confidence_intervals [1/10, -1/5] [[0], [0]]).ci99_hi) :=
  ⟨⟨by decide, bootstrap_ci_lower_le_upper.1 [] [] [[0]] (by decide)⟩,
   ⟨by decide, bootstrap_ci_lower_le_upper.2 [1/10, -1/5] [[0], [0]] (by decide)⟩⟩

theorem rsi_gain_nonneg (closes : List ℚ) (period t : ℕ) (g : ℚ)
    (h : rsi_gain closes period t = some g) : 0 ≤ g := by
  unfold rsi_gain at h
  split at h
  · have hg := Option.some_inj.mp h
    subst hg
    apply div_nonneg
    · apply List.sum_nonneg
      intro x hx
      simp only [List.mem_map] at hx
      obtain ⟨j, _, rfl⟩ := hx
      exact le_max_right _ 0
    · exact_mod_cast Nat.zero_le period
  · cases h

theorem rsi_loss_nonneg (closes : List ℚ) (period t : ℕ) (l : ℚ)
    (h : rsi_loss closes period t = some l) : 0 ≤ l := by
  unfold rsi_loss at h
  split at h
  · have hl := Option.some_inj.mp h
    subst hl
    apply div_nonneg
    · apply List.sum_nonneg
      intro x hx
      simp only [List.mem_map] at hx
      obtain ⟨j, _, rfl⟩ := hx
      exact le_max_right _ 0
    · exact_mod_cast Nat.zero_le period
  · cases h

/-- Claim C9.  Wherever the RSI feature series computed by
`_compute_feature` is defined (not a pandas missing value), its value lies
within `[0, 100]`, for every input price series, period and index: the
rolling gain and loss averages are nonnegative, so `rs = gain/loss ≥ 0` and
`100 − 100/(1+rs) ∈ [0, 100)`, while a zero loss with positive gain gives
`rs = +inf`, i.e. exactly `100`. -/
theorem rsi_within_bounds (closes : List ℚ) (period t : ℕ) (v : ℚ)
    (h : rsi_at closes period t = some v) : 0 ≤ v ∧ v ≤ 100 := by
  unfold rsi_at at h
  cases hg : rsi_gain closes period t with
  | none => rw [hg] at h; cases h
  | some g =>
    cases hl : rsi_loss closes period t with
    | none => rw [hg, hl] at h; cases h
    | some l =>
      rw [hg, hl] at h
      simp only at h
      have hg0 : 0 ≤ g := rsi_gain_nonneg closes period t g hg
      have hl0 : 0 ≤ l := rsi_loss_nonneg closes period t l hl
      by_cases hlpos : 0 < l
      · rw [if_pos hlpos] at h
        have hv : v = 100 - 100 / (1 + g / l) := (Option.some_inj.mp h).symm
        have hd1 : (1 : ℚ) ≤ 1 + g / l := by
          have : (0 : ℚ) ≤ g / l := div_nonneg hg0 hl0
          linarith
        have hdpos : (0 : ℚ) < 1 + g / l := by linarith
        have hle : 100 / (1 + g / l) ≤ 100 := div_le_self (by norm_num) hd1
        have hpos : (0 : ℚ) < 100 / (1 + g / l) := div_pos (by norm_num) hdpos
        rw [hv]
        constructor <;> linarith
      · rw [if_neg hlpos] at h
        by_cases hgpos : 0 < g
        · rw [if_pos hgpos] at h
          have hv : v = 100 := (Option.some_inj.mp h).symm
          rw [hv]; norm_num
        · rw [if_neg hgpos] at h; cases h

/-- Witness for C9: a fully evaluated RSI value at a concrete series. -/
theorem rsi_within_bounds_witness :
    rsi_at [1, 2, 3] 1 2 = some 100 ∧ (0 : ℚ) ≤ 100 ∧ (100 : ℚ) ≤ 100 := by
  have h : rsi_at [1, 2, 3] 1 2 = some 100 := by
    norm_num [rsi_at, rsi_gain, rsi_loss, show List.range 1 = [0] from rfl, max_def]
  exact ⟨h, rsi_within_bounds [1, 2, 3] 1 2 100 h⟩

theorem simStep_foldl_sound (closes : List ℚ) (cap : ℚ) :
    ∀ (l : List ℕ) (st : List BtTrade × Option BtPosition),
      (∀ i ∈ l, 21 ≤ i ∧ i + 2 ≤ closes.length) →
      List.Pairwise (· < ·) l →
      (∀ tr ∈ st.1, crossoverTradeSpec closes cap tr) →
      (∀ p, st.2 = some p → openPositionSpec closes p ∧ ∀ i ∈ l, p.entry_time < i) →
      ∀ tr ∈ (l.foldl (simStep closes cap) st).1, crossoverTradeSpec closes cap tr := by
  intro l
  induction l with
  | nil =>
    intro st _ _ hts _ tr htr
    exact hts tr htr
  | cons i rest ih =>
    intro st hb hp hts hpos tr htr
    obtain ⟨ts, pos⟩ := st
    rw [List.foldl_cons] at htr
    have hbrest : ∀ j ∈ rest, 21 ≤ j ∧ j + 2 ≤ closes.length :=
      fun j hj => hb j (List.mem_cons_of_mem i hj)
    have hprest : List.Pairwise (· < ·) rest := hp.of_cons
    have hihead : 21 ≤ i ∧ i + 2 ≤ closes.length := hb i (List.mem_cons_self i rest)
    have hpcons := List.pairwise_cons.mp hp
    cases pos with
    | none =>
      by_cases hcond : (pyGt (smaAt closes 9 i) (smaAt closes 21 i) &&
          pyLe (smaAt closes 9 (i - 1)) (smaAt closes 21 (i - 1))) = true
      · have hstep : simStep closes cap (ts, none) i =
            (ts, some { entry_time := i, entry_price := closes.getD i 0 }) := by
          simp [simStep, hcond]
        rw [hstep] at htr
        refine ih (ts, some { entry_time := i, entry_price := closes.getD i 0 })
          hbrest hprest (fun tr' h => hts tr' h) ?_ tr htr
        intro p hp'
        have hpe : p = { entry_time := i, entry_price := closes.getD i 0 } :=
          Option.some_inj.mp hp'.symm
        subst hpe
        rw [Bool.and_eq_true] at hcond
        exact ⟨⟨hihead.1, hihead.2, hcond.1, hcond.2, rfl⟩, fun j hj => hpcons.1 j hj⟩
      · have hstep : simStep closes cap (ts, none) i = (ts, none) := by
          simp [simStep, hcond]
        rw [hstep] at htr
        refine ih (ts, none) hbrest hprest hts ?_ tr htr
        intro p hp'
        cases hp'
    | some p =>
      obtain ⟨hps, hplt⟩ := hpos p rfl
      by_cases hcond : pyLt (smaAt closes 9 i) (smaAt closes 21 i) = true
      · set newTrade : BtTrade :=
          ⟨p.entry_time, i, (closes.getD i 0 - p.entry_price) * (cap / p.entry_price),
            (closes.getD i 0 - p.entry_price) / p.entry_price⟩ with hnt
        have hstep : simStep closes cap (ts, some p) i = (ts ++ [newTrade], none) := by
          simp [simStep, hcond, hnt]
        rw [hstep] at htr
        refine ih (ts ++ [newTrade], none) hbrest hprest ?_ ?_ tr htr
        · intro tr' htr'
          rcases List.mem_append.mp htr' with hold | hnew
          · exact hts tr' hold
          · have htr'' := List.mem_singleton.mp hnew
            subst htr''
            obtain ⟨hp21, hplen, hpgt, hple, hprice⟩ := hps
            refine ⟨hp21, hplt i (List.mem_cons_self i rest), hihead.2, hpgt, hple, hcond,
              ?_, ?_⟩ <;> simp [hnt, hprice]
        · intro p' hp'
          cases hp'
      · have hstep : simStep closes cap (ts, some p) i = (ts, some p) := by
          simp [simStep, hcond]
        rw [hstep] at htr
        refine ih (ts, some p) hbrest hprest hts ?_ tr htr
        intro p' hp'
        have hpe : p' = p := Option.some_inj.mp hp'.symm
        subst hpe
        exact ⟨hps, fun j hj => hplt j (List.mem_cons_of_mem i hj)⟩

/-- Claim C7.  For every fetched price series: the backtest scan runs exactly
over bar indices `21 … len−2` (Python `range(21, len−1)`, final conjunct);
while flat it opens a long exactly when the 9-bar moving average is strictly
above the 21-bar moving average on the current bar having been at-or-below
on the prior bar (second conjunct); while long it closes exactly when the
fast average is strictly below the slow one (third conjunct); and every
recorded trade was entered/exited under those crossover conditions inside
the scanned range, with `pnl = (exit − entry) × (capital / entry)` and
return fraction `(exit − entry) / entry` (first conjunct). -/
theorem backtest_simulate_trades_spec :
    (∀ (closes : List ℚ) (cap : ℚ), ∀ tr ∈ simulate_trades closes cap,
      crossoverTradeSpec closes cap tr) ∧
    (∀ (closes : List ℚ) (cap : ℚ) (ts : List BtTrade) (i : ℕ),
      simStep closes cap (ts, none) i =
        (if pyGt (smaAt closes 9 i) (smaAt closes 21 i) &&
            pyLe (smaAt closes 9 (i - 1)) (smaAt closes 21 (i - 1))
         then (ts, some { entry_time := i, entry_price := closes.getD i 0 })
         else (ts, none))) ∧
    (∀ (closes : List ℚ) (cap : ℚ) (ts : List BtTrade) (p : BtPosition) (i : ℕ),
      simStep closes cap (ts, some p) i =
        (if pyLt (smaAt closes 9 i) (smaAt closes 21 i)
         then (ts ++ [{ entry_time := p.entry_time, exit_time := i,
                        pnl := (closes.getD i 0 - p.entry_price) * (cap / p.entry_price),
                        return_pct := (closes.getD i 0 - p.entry_price) / p.entry_price }],
               none)
         else (ts, some p))) ∧
    (∀ (closes : List ℚ) (cap : ℚ),
      simulate_trades closes cap =
        ((List.range' 21 (closes.length - 1 - 21)).foldl (simStep closes cap) ([], none)).1) := by
  refine ⟨?_, fun _ _ _ _ => rfl, fun _ _ _ _ _ => rfl, fun _ _ => rfl⟩
  intro closes cap tr htr
  refine simStep_foldl_sound closes cap (scanIndices closes.length) ([], none) ?_ ?_ ?_ ?_ tr htr
  · intro i hi
    have := List.mem_range'_1.mp hi
    omega
  · exact List.pairwise_lt_range' 21 (closes.length - 1 - 21)
  · intro tr' htr'
    cases htr'
  · intro p hp
    cases hp

/-- Witness for C7: the concrete series `btClosesWitness` produces exactly
one trade, which satisfies the crossover-trade property. -/
theorem backtest_simulate_trades_spec_witness :
    btTradeWitness ∈ simulate_trades btClosesWitness 10000 ∧
    crossoverTradeSpec btClosesWitness 10000 btTradeWitness := by
  have h920 : smaAt btClosesWitness 9 20 = some 100 := by
    norm_num [smaAt, btClosesWitness, show List.range 9 = [0,1,2,3,4,5,6,7,8] from rfl]
  have h2120 : smaAt btClosesWitness 21 20 = some 100 := by
    norm_num [smaAt, btClosesWitness,
      show List.range 21 = [0,1,2,3,4,5,6,7,8,9,10,11,12,13,14,15,16,17,18,19,20] from rfl]
  have h921 : smaAt btClosesWitness 9 21 = some (1000/9) := by
    norm_num [smaAt, btClosesWitness, show List.range 9 = [0,1,2,3,4,5,6,7,8] from rfl]
  have h2121 : smaAt btClosesWitness 21 21 = some (2200/21) := by
    norm_num [smaAt, btClosesWitness,
      show List.range 21 = [0,1,2,3,4,5,6,7,8,9,10,11,12,13,14,15,16,17,18,19,20] from rfl]
  have h922 : smaAt btClosesWitness 9 22 = some (910/9) := by
    norm_num [smaAt, btClosesWitness, show List.range 9 = [0,1,2,3,4,5,6,7,8] from rfl]
  have h2122 : smaAt btClosesWitness 21 22 = some (2110/21) := by
    norm_num [smaAt, btClosesWitness,
      show List.range 21 = [0,1,2,3,4,5,6,7,8,9,10,11,12,13,14,15,16,17,18,19,20] from rfl]
  have h923 : smaAt btClosesWitness 9 23 = some (820/9) := by
    norm_num [smaAt, btClosesWitness, show List.range 9 = [0,1,2,3,4,5,6,7,8] from rfl]
  have h2123 : smaAt btClosesWitness 21 23 = some (2020/21) := by
    norm_num [smaAt, btClosesWitness,
      show List.range 21 = [0,1,2,3,4,5,6,7,8,9,10,11,12,13,14,15,16,17,18,19,20] from rfl]
  have hscan : scanIndices btClosesWitness.length = [21, 22, 23] := rfl
  have hev : simulate_trades btClosesWitness 10000 = [btTradeWitness] := by
    rw [simulate_trades, simulate_loop, hscan]
    simp only [List.foldl, simStep, h920, h2120, h921, h2121, h922, h2122, h923, h2123,
      pyGt, pyLe, pyLt]
    norm_num [btClosesWitness, btTradeWitness]
  have hmem : btTradeWitness ∈ simulate_trades btClosesWitness 10000 := by
    rw [hev]
    exact List.mem_singleton.mpr rfl
  exact ⟨hmem, backtest_simulate_trades_spec.1 btClosesWitness 10000 _ hmem⟩

theorem equityCurveAux_getLast : ∀ (ts : List BtTrade) (x : EqLabel × ℚ),
    ((x :: equityCurveAux x.2 ts).getLast?.getD (EqLabel.start, 0)).2 =
      x.2 + (ts.map BtTrade.pnl).sum := by
  intro ts
  induction ts with
  | nil =>
    intro x
    simp [equityCurveAux]
  | cons t ts ih =>
    intro x
    simp only [equityCurveAux, List.getLast?_cons_cons]
    have hih := ih (EqLabel.exitAt t.exit_time, x.2 + t.pnl)
    simp only at hih
    rw [hih]
    simp only [List.map_cons, List.sum_cons]
    ring

/-- Claim C10.  A position still open when the scanned data ends is silently
discarded.  First conjunct: the equity curve is built from the recorded
trades alone — its final equity is the initial capital plus the sum of the
recorded trades' profits, for every trade list.  The remaining conjuncts
exhibit a concrete series (`btClosesOpenEnd`) on which the scan ends with an
open position while the returned trade list is empty, so the equity curve
degenerates to the synthetic start point and every performance metric is
zero. -/
theorem backtest_open_position_discarded :
    (∀ (trades : List BtTrade) (cap : ℚ),
      ((calculate_equity_curve trades cap).getLast?.getD (EqLabel.start, 0)).2 =
        cap + (trades.map BtTrade.pnl).sum) ∧
    (simulate_loop btClosesOpenEnd 10000).2 =
      some { entry_time := 21, entry_price := 200 } ∧
    simulate_trades btClosesOpenEnd 10000 = [] ∧
    calculate_equity_curve (simulate_trades btClosesOpenEnd 10000) 10000 =
      [(EqLabel.start, 10000)] ∧
    calculate_metrics (simulate_trades btClosesOpenEnd 10000)
        (calculate_equity_curve (simulate_trades btClosesOpenEnd 10000) 10000) 10000 =
      { total_return := 0, sharpe_ratio := 0, max_drawdown := 0, win_rate := 0,
        profit_factor := 0 } := by
  have h920 : smaAt btClosesOpenEnd 9 20 = some 100 := by
    norm_num [smaAt, btClosesOpenEnd, show List.range 9 = [0,1,2,3,4,5,6,7,8] from rfl]
  have h2120 : smaAt btClosesOpenEnd 21 20 = some 100 := by
    norm_num [smaAt, btClosesOpenEnd,
      show List.range 21 = [0,1,2,3,4,5,6,7,8,9,10,11,12,13,14,15,16,17,18,19,20] from rfl]
  have h921 : smaAt btClosesOpenEnd 9 21 = some (1000/9) := by
    norm_num [smaAt, btClosesOpenEnd, show List.range 9 = [0,1,2,3,4,5,6,7,8] from rfl]
  have h2121 : smaAt btClosesOpenEnd 21 21 = some (2200/21) := by
    norm_num [smaAt, btClosesOpenEnd,
      show List.range 21 = [0,1,2,3,4,5,6,7,8,9,10,11,12,13,14,15,16,17,18,19,20] from rfl]
  have hscan : scanIndices btClosesOpenEnd.length = [21] := rfl
  have hloop : simulate_loop btClosesOpenEnd 10000 =
      ([], some { entry_time := 21, entry_price := 200 }) := by
    rw [simulate_loop, hscan]
    simp only [List.foldl, simStep, h920, h2120, h921, h2121, pyGt, pyLe]
    norm_num [btClosesOpenEnd]
  have htrades : simulate_trades btClosesOpenEnd 10000 = [] := by
    rw [simulate_trades, hloop]
  refine ⟨?_, by rw [hloop], htrades, by rw [htrades]; rfl, by rw [htrades]; rfl⟩
  intro trades cap
  simpa [calculate_equity_curve] using equityCurveAux_getLast trades (EqLabel.start, cap)

/-- Counterexample for C5 as stated.  The claim says the statistical stage
compares the two median-split groups "using a two-sample Welch
(unequal-variance) t-test".  `scipy.stats.ttest_ind` is called with its
default `equal_var=True`, i.e. the pooled-variance standard t-test, and on a
concrete input with unequal group sizes and variances the reported
t-statistic differs from the Welch statistic the spec describes. -/
theorem ttest_not_welch_counterexample :
    (ttest_section tsfZero ttestFeature0 ttestReturns0).1 ≠
      welch_t_statistic_spec (signal_returns ttestFeature0 ttestReturns0)
        (no_signal_returns ttestFeature0 ttestReturns0) := by
  have hsorted : List.Sorted (· ≤ ·) ttestFeature0 := by decide
  have hms : ttestFeature0.mergeSort (fun a b => a ≤ b) = ttestFeature0 :=
    List.mergeSort_eq_self hsorted
  have hmed : pandasMedian ttestFeature0 = 1 := by
    simp only [pandasMedian, hms]
    norm_num [ttestFeature0]
  have hsig : signal_returns ttestFeature0 ttestReturns0 = [0, 2] := by
    simp only [signal_returns, hmed]
    decide
  have hnos : no_signal_returns ttestFeature0 ttestReturns0 = [4, 4, 4, 4, 4] := by
    simp only [no_signal_returns, hmed]
    decide
  have hrep : (ttest_section tsfZero ttestFeature0 ttestReturns0).1 =
      (-3 : ℝ) / Real.sqrt ((7 : ℝ) / 25) := by
    simp only [ttest_section, hsig, hnos]
    rw [if_pos (by norm_num)]
    simp only [ttest_ind_t]
    norm_num [qmean, sampleVar]
  have hwel : welch_t_statistic_spec (signal_returns ttestFeature0 ttestReturns0)
      (no_signal_returns ttestFeature0 ttestReturns0) = -3 := by
    rw [hsig, hnos]
    simp only [welch_t_statistic_spec]
    norm_num [qmean, sampleVar, Real.sqrt_one]
  rw [hrep, hwel]
  intro heq
  have hs : (0 : ℝ) < Real.sqrt ((7 : ℝ) / 25) := Real.sqrt_pos.mpr (by norm_num)
  have h1 : Real.sqrt ((7 : ℝ) / 25) = 1 := by
    field_simp at heq
    linarith
  rw [Real.sqrt_eq_one] at h1
  norm_num at h1

/-- Claim C5, amended.  Edge discovery's statistical test stage compares the
forward 1-bar returns where the feature is strictly above its median against
those at-or-below it using the *standard pooled-variance* two-sample t-test
(`scipy.stats.ttest_ind` with its default `equal_var=True`), not the Welch
unequal-variance test; it reports t-statistic 0 and p-value 1 whenever
either group has at most one observation, and otherwise the reported
statistic is the pooled-variance statistic with the two-sided p-value taken
at `n1+n2−2` degrees of freedom. -/
theorem ttest_section_guard_and_pooled :
    (∀ (tsf : ℝ → ℕ → ℝ) (f r : List ℚ),
      (signal_returns f r).length ≤ 1 ∨ (no_signal_returns f r).length ≤ 1 →
      ttest_section tsf f r = (0, 1)) ∧
    (∀ (tsf : ℝ → ℕ → ℝ) (f r : List ℚ),
      1 < (signal_returns f r).length → 1 < (no_signal_returns f r).length →
      (ttest_section tsf f r).1 = ttest_ind_t (signal_returns f r) (no_signal_returns f r) ∧
      (ttest_section tsf f r).2 =
        2 * tsf |ttest_ind_t (signal_returns f r) (no_signal_returns f r)|
          ((signal_returns f r).length + (no_signal_returns f r).length - 2)) := by
  constructor
  · intro tsf f r h
    unfold ttest_section
    rw [if_neg]
    omega
  · intro tsf f r h1 h2
    unfold ttest_section
    rw [if_pos ⟨h1, h2⟩]
    exact ⟨rfl, rfl⟩

/-- Witness for C5's amended theorem at concrete inputs: the empty series
trigger the guard, and `ttestFeature0`/`ttestReturns0` exercise the pooled
branch. -/
theorem ttest_section_guard_and_pooled_witness :
    (((signal_returns [] []).length ≤ 1 ∨ (no_signal_returns [] []).length ≤ 1) ∧
      ttest_section tsfZero [] [] = (0, 1)) ∧
    ((1 < (signal_returns ttestFeature0 ttestReturns0).length ∧
      1 < (no_signal_returns ttestFeature0 ttestReturns0).length) ∧
      (ttest_section tsfZero ttestFeature0 ttestReturns0).1 =
        ttest_ind_t (signal_returns ttestFeature0 ttestReturns0)
          (no_signal_returns ttestFeature0 ttestReturns0)) := by
  have hsorted : List.Sorted (· ≤ ·) ttestFeature0 := by decide
  have hms : ttestFeature0.mergeSort (fun a b => a ≤ b) = ttestFeature0 :=
    List.mergeSort_eq_self hsorted
  have hmed : pandasMedian ttestFeature0 = 1 := by
    simp only [pandasMedian, hms]
    norm_num [ttestFeature0]
  have hsig : signal_returns ttestFeature0 ttestReturns0 = [0, 2] := by
    simp only [signal_returns, hmed]
    decide
  have hnos : no_signal_returns ttestFeature0 ttestReturns0 = [4, 4, 4, 4, 4] := by
    simp only [no_signal_returns, hmed]
    decide
  have hg : (signal_returns [] []).length ≤ 1 ∨ (no_signal_returns [] []).length ≤ 1 := by
    left
    decide
  exact ⟨⟨hg, ttest_section_guard_and_pooled.1 tsfZero [] [] hg⟩,
    ⟨⟨by rw [hsig]; norm_num, by rw [hnos]; norm_num⟩,
     (ttest_section_guard_and_pooled.2 tsfZero ttestFeature0 ttestReturns0
       (by rw [hsig]; norm_num) (by rw [hnos]; norm_num)).1⟩⟩

/-- Counterexample for C6 as stated.  The claim says the ML feature matrix's
fourth and fifth columns are the 1-bar and 5-bar *forward* returns.  The
source builds them with `pct_change(k)` and no forward shift, i.e. the
*trailing* returns: on the prices `[1, 2, 6]` at index 1 the matrix column
holds the trailing return `(2−1)/1 = 1` while the 1-bar forward return is
`(6−2)/2 = 2`. -/
theorem feature_matrix_returns_not_forward :
    (create_feature_matrix (fun _ => none) [1, 2, 6]).returns_1d 1 = some 1 ∧
    forward_return_spec [1, 2, 6] 1 1 = some 2 ∧
    (create_feature_matrix (fun _ => none) [1, 2, 6]).returns_1d 1 ≠
      forward_return_spec [1, 2, 6] 1 1 := by
  have h1 : (create_feature_matrix (fun _ => none) [1, 2, 6]).returns_1d 1 = some 1 := by
    simp only [create_feature_matrix]
    norm_num [pct_change, pctChangeVal]
  have h2 : forward_return_spec [1, 2, 6] 1 1 = some 2 := by
    norm_num [forward_return_spec, pct_change, pctChangeVal]
  refine ⟨h1, h2, ?_⟩
  rw [h1, h2]
  intro h
  have := Option.some_inj.mp h
  norm_num at this

/-- Claim C6, amended.  The ML feature matrix built per bar has exactly the
six columns: the feature value, its 1-bar and 2-bar lags, the *trailing*
1-bar return `pct_change(1)`, the *trailing* 5-bar return `pct_change(5)`
(the source applies no forward shift to either, contrary to the claimed
"forward" returns), and the 20-bar rolling standard deviation of 1-bar
returns; the binary label is whether the next bar's return is positive. -/
theorem feature_matrix_columns :
    (∀ (f : ℕ → Option ℚ) (closes : List ℚ),
      create_feature_matrix f closes =
        { feature := f, feature_lag1 := seriesShift f 1, feature_lag2 := seriesShift f 2,
          returns_1d := pct_change closes 1, returns_5d := pct_change closes 5,
          volatility := rolling_vol20 closes }) ∧
    (∀ (f : ℕ → Option ℚ) (closes : List ℚ) (t : ℕ), t + 1 < closes.length →
      (create_feature_matrix f closes).returns_1d (t + 1) =
        some ((closes.getD (t + 1) 0 - closes.getD t 0) / closes.getD t 0) ∧
      (create_feature_matrix f closes).feature_lag1 (t + 1) = f t ∧
      (create_feature_matrix f closes).feature_lag2 (t + 2) = f t) ∧
    (∀ (f : ℕ → Option ℚ) (closes : List ℚ) (t : ℕ), t + 5 < closes.length →
      (create_feature_matrix f closes).returns_5d (t + 5) =
        some ((closes.getD (t + 5) 0 - closes.getD t 0) / closes.getD t 0)) ∧
    (∀ (closes : List ℚ) (t : ℕ), t + 1 < closes.length →
      ml_label closes t =
        if 0 < (closes.getD (t + 1) 0 - closes.getD t 0) / closes.getD t 0
        then 1 else 0) := by
  refine ⟨fun f closes => rfl, ?_, ?_, ?_⟩
  · intro f closes t ht
    refine ⟨?_, ?_, ?_⟩
    · simp only [create_feature_matrix, pct_change, pctChangeVal]
      rw [if_pos ⟨by omega, by omega, ht⟩]
      simp
    · simp only [create_feature_matrix, seriesShift]
      rw [if_pos (by omega : 1 ≤ t + 1)]
      simp
    · simp only [create_feature_matrix, seriesShift]
      rw [if_pos (by omega : 2 ≤ t + 2)]
      simp
  · intro f closes t ht
    simp only [create_feature_matrix, pct_change, pctChangeVal]
    rw [if_pos ⟨by omega, by omega, ht⟩]
    simp
  · intro closes t ht
    simp only [ml_label, pct_change, pctChangeVal]
    rw [if_pos (by omega : t < closes.length), if_pos ⟨by omega, by omega, ht⟩]
    simp

/-- Witness for C6's amended theorem at a concrete series of length 7. -/
theorem feature_matrix_columns_witness :
    ((1 : ℕ) + 1 < ([1, 2, 6, 1, 1, 1, 1] : List ℚ).length ∧
      (create_feature_matrix (fun _ => none) [1, 2, 6, 1, 1, 1, 1]).returns_1d 2 =
        some ((([1, 2, 6, 1, 1, 1, 1] : List ℚ).getD 2 0 -
            ([1, 2, 6, 1, 1, 1, 1] : List ℚ).getD 1 0) /
          ([1, 2, 6, 1, 1, 1, 1] : List ℚ).getD 1 0)) ∧
    ((1 : ℕ) + 5 < ([1, 2, 6, 1, 1, 1, 1] : List ℚ).length ∧
      (create_feature_matrix (fun _ => none) [1, 2, 6, 1, 1, 1, 1]).returns_5d 6 =
        some ((([1, 2, 6, 1, 1, 1, 1] : List ℚ).getD 6 0 -
            ([1, 2, 6, 1, 1, 1, 1] : List ℚ).getD 1 0) /
          ([1, 2, 6, 1, 1, 1, 1] : List ℚ).getD 1 0)) := by
  exact ⟨⟨by decide,
      ((feature_matrix_columns.2.1 (fun _ => none) [1, 2, 6, 1, 1, 1, 1] 1 (by decide)).1)⟩,
    ⟨by decide,
      feature_matrix_columns.2.2.1 (fun _ => none) [1, 2, 6, 1, 1, 1, 1] 1 (by decide)⟩⟩

theorem scipy_normaltest_raises (b : RegBoundary) (xs : List ℚ) (h : xs.length < 8) :
    scipy_normaltest b xs =
      .error (.valueError "skewtest is not valid with less than 8 samples") := by
  unfold scipy_normaltest
  rw [if_pos h]

theorem scipy_normaltest_ok (b : RegBoundary) (xs : List ℚ) (h : ¬ xs.length < 8) :
    scipy_normaltest b xs = .ok (b.normaltest_p xs) := by
  unfold scipy_normaltest
  rw [if_neg h]

/-- Claim C3.  The regression service returns the zeroed/empty result
immediately for an empty trade list (first conjunct — this half of the claim
holds).  For a single trade, however, the claim's "degenerate-fit guard"
does not exist in the code: `np.linalg.lstsq` solves the underdetermined
1×5 system without raising (supplied as the hypothesis on the boundary), and
the later `scipy.stats.normaltest` call on the single residual — outside the
source's `try/except` — raises `ValueError`, so `analyze` raises instead of
returning the empty result (second conjunct). -/
theorem regression_empty_ok_single_raises (b : RegBoundary) (feats : List String)
    (c : Fin 5 → ℚ)
    (hl : b.lstsq (design_matrix b (extract_returns [some (1/100)]).length)
        (extract_returns [some (1/100)]) = .ok c) :
    analyze b [] feats = .ok empty_result ∧
    analyze b [some (1/100)] feats =
      .error (.valueError "skewtest is not valid with less than 8 samples") := by
  constructor
  · rfl
  · simp only [analyze]
    rw [if_neg (by decide : ¬ ([some ((1:ℚ)/100)] : List (Option ℚ)).isEmpty = true)]
    rw [hl]
    dsimp only
    rw [scipy_normaltest_raises]
    simp [design_matrix, extract_returns]

/-- Witness for C3 at the concrete boundary `regBoundary0`. -/
theorem regression_empty_ok_single_raises_witness :
    regBoundary0.lstsq (design_matrix regBoundary0 (extract_returns [some (1/100)]).length)
        (extract_returns [some (1/100)]) = .ok (fun _ => 0) ∧
    (analyze regBoundary0 [] [] = .ok empty_result ∧
     analyze regBoundary0 [some (1/100)] [] =
       .error (.valueError "skewtest is not valid with less than 8 samples")) :=
  ⟨rfl, regression_empty_ok_single_raises regBoundary0 [] (fun _ => 0) rfl⟩

theorem analyze_factors_eq (b : RegBoundary) (trades : List (Option ℚ))
    (feats : List String) (c : Fin 5 → ℚ) (h8 : 8 ≤ trades.length)
    (hl : b.lstsq (design_matrix b (extract_returns trades).length)
        (extract_returns trades) = .ok c) :
    ∃ res : RegResult, analyze b trades feats = .ok res ∧
      res.factors = factor_records b (extract_returns trades) c := by
  cases trades with
  | nil => simp at h8
  | cons t ts =>
    simp only [analyze]
    rw [if_neg (by simp : ¬ ((t :: ts) : List (Option ℚ)).isEmpty = true)]
    rw [hl]
    dsimp only
    rw [scipy_normaltest_ok]
    · exact ⟨_, rfl, rfl⟩
    · simp only [List.length_zipWith, List.length_map, design_matrix, extract_returns,
        List.length_range, min_self]
      simp only [extract_returns, List.length_map] at *
      omega

/-- Claim C4, amended.  For every trade list on which the fit completes
without raising (at least 8 trades, so the residual normality test is
defined, with the least-squares boundary succeeding), `analyze` returns
exactly 4 factor records, each a dict with exactly the keys `name`,
`coefficient`, `p_value` and `significance`; the records are
`factor_records`, whose entries carry the factor's coefficient, the
two-tailed Student-t p-value `2·(1 − t.cdf(|t|, n−5))` built from the
t-statistic `coef / (std(returns)/√n)`, and the significance marker — the
t-statistic itself is computed but not stored in the record. -/
theorem regression_factors_shape (b : RegBoundary) (trades : List (Option ℚ))
    (feats : List String) (c : Fin 5 → ℚ) (h8 : 8 ≤ trades.length)
    (hl : b.lstsq (design_matrix b (extract_returns trades).length)
        (extract_returns trades) = .ok c) :
    (∃ res : RegResult, analyze b trades feats = .ok res ∧
      res.factors = factor_records b (extract_returns trades) c) ∧
    (factor_records b (extract_returns trades) c).length = 4 ∧
    ∀ rec ∈ factor_records b (extract_returns trades) c,
      rec.map Prod.fst = ["name", "coefficient", "p_value", "significance"] := by
  refine ⟨analyze_factors_eq b trades feats c h8 hl, ?_, ?_⟩
  · simp [factor_records]
  · intro rec hrec
    simp only [factor_records, List.mem_map] at hrec
    obtain ⟨i, _, rfl⟩ := hrec
    rfl

/-- Witness for C4's amended theorem at the concrete nine-trade input. -/
theorem regression_factors_shape_witness :
    (8 ≤ regTrades9.length ∧
      regBoundary5.lstsq (design_matrix regBoundary5 (extract_returns regTrades9).length)
        (extract_returns regTrades9) = .ok (fun _ => 5)) ∧
    ((∃ res : RegResult, analyze regBoundary5 regTrades9 [] = .ok res ∧
        res.factors = factor_records regBoundary5 (extract_returns regTrades9) (fun _ => 5)) ∧
      (factor_records regBoundary5 (extract_returns regTrades9) (fun _ => 5)).length = 4 ∧
      ∀ rec ∈ factor_records regBoundary5 (extract_returns regTrades9) (fun _ => 5),
        rec.map Prod.fst = ["name", "coefficient", "p_value", "significance"]) :=
  ⟨⟨by decide, rfl⟩,
    regression_factors_shape regBoundary5 regTrades9 [] (fun _ => 5) (by decide) rfl⟩

/-- Counterexample for C4 as stated.  The claim says each factor record
*carries* the factor's t-statistic.  At a concrete input (returns
`[3,−3,3,−3,0,0,0,0,0]`, so `std = 2`, `√n = 3`, and a least-squares
boundary returning coefficient 5 everywhere) the first record's fields are
exactly `name`, `coefficient` (value 5), `p_value` (value 1) and
`significance`; no field holds the t-statistic
`coef/(std/√n) = 5/(2/3) = 15/2`. -/
theorem regression_record_lacks_t_statistic :
    ∃ res : RegResult, analyze regBoundary5 regTrades9 [] = .ok res ∧
      res.factors.length = 4 ∧
      (res.factors.getD 0 []).map Prod.fst =
        ["name", "coefficient", "p_value", "significance"] ∧
      ∀ kv ∈ res.factors.getD 0 [], kv.2 ≠
        PyVal.num (((5 : ℚ) : ℝ) /
          (Real.sqrt ((popVar (extract_returns regTrades9) : ℚ) : ℝ) /
            Real.sqrt ((extract_returns regTrades9).length : ℝ))) := by
  obtain ⟨res, hres, hfac⟩ :=
    analyze_factors_eq regBoundary5 regTrades9 [] (fun _ => 5) (by decide) rfl
  have ht : ((5 : ℚ) : ℝ) /
      (Real.sqrt ((popVar (extract_returns regTrades9) : ℚ) : ℝ) /
        Real.sqrt ((extract_returns regTrades9).length : ℝ)) = 15 / 2 := by
    have hpv : popVar (extract_returns regTrades9) = 4 := by
      norm_num [popVar, qmean, extract_returns, regTrades9]
    have hlen : ((extract_returns regTrades9).length : ℝ) = 9 := by
      norm_num [extract_returns, regTrades9]
    rw [hpv, hlen]
    rw [show ((4 : ℚ) : ℝ) = 2 ^ 2 by norm_num,
      show (9 : ℝ) = 3 ^ 2 by norm_num,
      Real.sqrt_sq (by norm_num : (0:ℝ) ≤ 2),
      Real.sqrt_sq (by norm_num : (0:ℝ) ≤ 3)]
    norm_num
  have hrec : (factor_records regBoundary5 (extract_returns regTrades9) (fun _ => 5)).getD 0 []
      = [("name", PyVal.str "volatility"),
         ("coefficient", PyVal.num ((5 : ℚ) : ℝ)),
         ("p_value", PyVal.num (2 * (1 - 1/2))),
         ("significance", PyVal.str (significance_marker (2 * (1 - 1/2))))] := rfl
  refine ⟨res, hres, by rw [hfac]; simp [factor_records], by rw [hfac, hrec]; rfl, ?_⟩
  intro kv hkv
  rw [hfac, hrec] at hkv
  rw [ht]
  simp only [List.mem_cons, List.not_mem_nil, or_false] at hkv
  rcases hkv with rfl | rfl | rfl | rfl
  · simp
  · simp only [ne_eq, PyVal.num.injEq]
    norm_num
  · simp only [ne_eq, PyVal.num.injEq]
    norm_num
  · simp

end QuantDev
